import Mathlib

/-!
Verification of the `proc-modules` crate (file `src/lib.rs`): the record
parser `Module::parse`, the batch parser `Module::parse_from`, and the lazy
line iterator `ModuleIter::next`, shallowly embedded over lists of
characters.
-/

namespace ProcModules

/-- Lines and fields are modelled as lists of characters. -/
abbrev Str := List Char

/-- Converts a Lean string literal to the character-list model. -/
def str (s : String) : Str := s.data

/-- Model of the Rust iterator `str::split(sep)` for a single-character
separator, collected into a list: the result always has at least one
element, and an empty input yields one empty field. -/
def splitChar (sep : Char) : Str → List Str
  | [] => [[]]
  | c :: cs =>
    if c = sep then [] :: splitChar sep cs
    else
      match splitChar sep cs with
      | [] => [[c]]
      | w :: ws => (c :: w) :: ws

/-- Model of a decimal digit test with its value, as in `u64::from_str`. -/
def digit? (c : Char) : Option Nat :=
  if c.isDigit then some (c.toNat - 48) else none

/-- Model of the digit-accumulation loop of `u64::from_str_radix` for
radix 10 on an unsigned 64-bit integer: each step multiplies by ten and
adds the digit, failing on a non-digit or on overflow past `2 ^ 64 - 1`. -/
def parseDigits : Nat → Str → Option Nat
  | acc, [] => some acc
  | acc, c :: cs =>
    match digit? c with
    | none => none
    | some d => if acc * 10 + d < 2 ^ 64 then parseDigits (acc * 10 + d) cs else none

/-- Model of `str::parse::<u64>` (`u64::from_str`): an optional single
leading `+` sign followed by a non-empty run of decimal digits whose value
fits in 64 bits; a leading `-` is rejected for the unsigned type. -/
def parseU64 (s : Str) : Option Nat :=
  match s with
  | [] => none
  | c :: cs =>
    if c = '+' then (if cs = [] then none else parseDigits 0 cs)
    else parseDigits 0 (c :: cs)

/-- The four error messages produced by `Module::parse`
(`io::Error::new(InvalidData, msg)` in the source). -/
inductive ParseError where
  | nameNotFound
  | sizeNotFound
  | usedByNotFound
  | invalidSize
deriving DecidableEq, Repr

/-- The `Module` struct: name, size and the list of dependents. -/
structure Module where
  module : Str
  size : Nat
  used_by : List Str
deriving DecidableEq, Repr

namespace Module

/-- Body of `Module::parse` after the split: `parts.next()` for the name,
`parts.next()` for the raw size, `parts.nth(1)` for the dependents field
(skipping the use-count), each failing with its message when the iterator
is exhausted; the raw size is converted with `parse::<u64>` only inside
the final struct expression, after the dependents field was obtained. -/
def parseFields : List Str → Except ParseError Module
  | [] => .error .nameNotFound
  | [_] => .error .sizeNotFound
  | [_, _] => .error .usedByNotFound
  | [_, _, _] => .error .usedByNotFound
  | name :: size :: _ :: used_by :: _ =>
    match parseU64 size with
    | none => .error .invalidSize
    | some n =>
      .ok { module := name, size := n,
            used_by :=
              if used_by = ['-'] then []
              else (splitChar ',' used_by).filter (fun x => x ≠ []) }

/-- Model of `Module::parse`: split the line on single spaces and extract
the fields. -/
def parse (line : Str) : Except ParseError Module :=
  parseFields (splitChar ' ' line)

/-- Model of `Module::parse_from`: `lines.map(Self::parse).collect()`,
which stops at the first error and otherwise collects every record in
order. -/
def parse_from : List Str → Except ParseError (List Module)
  | [] => .ok []
  | l :: ls =>
    match parse l with
    | .error e => .error e
    | .ok m =>
      match parse_from ls with
      | .error e => .error e
      | .ok ms => .ok (m :: ms)

end Module

/-- Result of one `read_line` call on the buffered stream: a successful
read of a (non-empty) line into the buffer, or an I/O read error. A
stream is modelled as the finite list of its remaining read results;
once the list is exhausted every further read returns zero bytes
(end of file). -/
inductive ReadResult where
  | line (s : Str)
  | ioError
deriving DecidableEq, Repr

/-- One yielded item of the iterator: a parsed record, a parse error, or
a surfaced read error (`io::Result<Module>` in the source). -/
inductive IterItem where
  | ok (m : Module)
  | parseErr (e : ParseError)
  | readErr
deriving DecidableEq, Repr

/-- The item the iterator yields for a successfully read line: the result
of `Module::parse` on the untrimmed buffer contents. -/
def itemOfParse (s : Str) : IterItem :=
  match Module.parse s with
  | .ok m => .ok m
  | .error e => .parseErr e

namespace ModuleIter

/-- Model of `ModuleIter::next`: clear the buffer and read one line.
Zero bytes read (exhausted stream) gives `none`; a read line is passed
whole, terminator included, to `Module::parse` and the result is yielded;
a read error is yielded as an error item and iteration continues. -/
def next : List ReadResult → Option IterItem × List ReadResult
  | [] => (none, [])
  | .line s :: rest => (some (itemOfParse s), rest)
  | .ioError :: rest => (some .readErr, rest)

/-- Runs `next` a number of further steps: `nextN k st` is the output of
the `k+1`-st call starting from state `st`. -/
def nextN : Nat → List ReadResult → Option IterItem × List ReadResult
  | 0, st => next st
  | k + 1, st => nextN k (next st).2

end ModuleIter

/-- The value of `Module::parse` on a line when it succeeds, as an option. -/
def parseOk? (l : Str) : Option Module :=
  match Module.parse l with
  | .ok m => some m
  | .error _ => none

/- Auxiliary lemmas about `splitChar`. -/

theorem splitChar_ne_nil (sep : Char) (l : Str) : splitChar sep l ≠ [] := by
  cases l with
  | nil => simp [splitChar]
  | cons c cs =>
    simp only [splitChar]
    split
    · simp
    · split
      · simp
      · simp

theorem splitChar_not_mem (sep : Char) (l : Str) (h : sep ∉ l) :
    splitChar sep l = [l] := by
  induction l with
  | nil => rfl
  | cons c cs ih =>
    have hc : c ≠ sep := fun e => h (e ▸ List.mem_cons_self c cs)
    have hcs : sep ∉ cs := fun m => h (List.mem_cons_of_mem _ m)
    simp [splitChar, hc, ih hcs]

theorem splitChar_append (sep : Char) (a b : Str) (h : sep ∉ a) :
    splitChar sep (a ++ sep :: b) = a :: splitChar sep b := by
  induction a with
  | nil => simp [splitChar]
  | cons c cs ih =>
    have hc : c ≠ sep := fun e => h (e ▸ List.mem_cons_self c cs)
    have hcs : sep ∉ cs := fun m => h (List.mem_cons_of_mem _ m)
    simp [splitChar, hc, ih hcs]

theorem splitChar_cons_ne (sep c : Char) (cs : Str) (h : c ≠ sep) :
    ∃ w ws, splitChar sep (c :: cs) = (c :: w) :: ws ∧ splitChar sep cs = w :: ws := by
  rcases hs : splitChar sep cs with _ | ⟨w, ws⟩
  · exact absurd hs (splitChar_ne_nil _ _)
  · exact ⟨w, ws, by simp [splitChar, h, hs], rfl⟩

theorem parseFields_len1 (parts : List Str) (h : parts.length = 1) :
    Module.parseFields parts = .error .sizeNotFound := by
  rcases parts with _ | ⟨a, _ | ⟨b, r⟩⟩
  · simp at h
  · rfl
  · simp at h

theorem parseFields_len23 (parts : List Str)
    (h : parts.length = 2 ∨ parts.length = 3) :
    Module.parseFields parts = .error .usedByNotFound := by
  rcases parts with _ | ⟨a, _ | ⟨b, _ | ⟨c, _ | ⟨d, r⟩⟩⟩⟩
  · simp at h
  · simp at h
  · rfl
  · rfl
  · simp at h

/-- Claim C9: `split(' ')` yields at least one field on every input, so the
missing-name branch of `Module::parse` is unreachable, and every call
returns a complete record or one of the missing-size, missing-used_by or
invalid-number errors. -/
theorem C9_parse_total (line : Str) :
    splitChar ' ' line ≠ [] ∧
    Module.parse line ≠ Except.error ParseError.nameNotFound ∧
    ((∃ m, Module.parse line = Except.ok m) ∨
      Module.parse line = Except.error ParseError.sizeNotFound ∨
      Module.parse line = Except.error ParseError.usedByNotFound ∨
      Module.parse line = Except.error ParseError.invalidSize) := by
  refine ⟨splitChar_ne_nil _ _, ?_⟩
  rcases h : splitChar ' ' line with _ | ⟨a, _ | ⟨b, _ | ⟨c, _ | ⟨d, rest⟩⟩⟩⟩
  · exact absurd h (splitChar_ne_nil _ _)
  · simp [Module.parse, h, Module.parseFields]
  · simp [Module.parse, h, Module.parseFields]
  · simp [Module.parse, h, Module.parseFields]
  · cases hp : parseU64 b <;> simp [Module.parse, h, Module.parseFields, hp]

/-- Claim C1 (amended): no line splits into zero fields, so the missing-name
error never occurs; a line with exactly one field — including the empty
line, whose single field is the empty string — fails with the missing-size
error, and a line with exactly two or three fields fails with the
missing-used_by error. -/
theorem C1_field_count_errors (line : Str) :
    ((splitChar ' ' line).length = 1 →
      Module.parse line = Except.error ParseError.sizeNotFound) ∧
    ((splitChar ' ' line).length = 2 ∨ (splitChar ' ' line).length = 3 →
      Module.parse line = Except.error ParseError.usedByNotFound) :=
  ⟨fun h1 => parseFields_len1 _ h1, fun h2 => parseFields_len23 _ h2⟩

/-- Claim C1 counterexample: the empty line does not fail with the
missing-name error; its single empty field becomes the name and the parse
fails with the missing-size error instead. -/
theorem C1_counterexample :
    Module.parse (str "") = Except.error ParseError.sizeNotFound ∧
    ParseError.sizeNotFound ≠ ParseError.nameNotFound :=
  ⟨rfl, by decide⟩

/-- Claim C1 witness: concrete instances of the amended field-count error
ordering. -/
theorem C1_witness :
    Module.parse (str "") = Except.error ParseError.sizeNotFound ∧
    Module.parse (str "a b") = Except.error ParseError.usedByNotFound :=
  ⟨(C1_field_count_errors (str "")).1 (by decide),
   (C1_field_count_errors (str "a b")).2 (Or.inl (by decide))⟩

/-- Claim C2 (amended): the dependents-presence check precedes the
size-validity check; a line whose size field is present but not parseable
fails with the invalid-number error only when the dependents field is also
present (at least four fields), and fails with the missing-used_by error
when the dependents field is absent. -/
theorem C2_size_check_after_used_by (line name s : Str) (rest : List Str)
    (h : splitChar ' ' line = name :: s :: rest) (hs : parseU64 s = none) :
    (2 ≤ rest.length → Module.parse line = Except.error ParseError.invalidSize) ∧
    (rest.length < 2 → Module.parse line = Except.error ParseError.usedByNotFound) := by
  rcases rest with _ | ⟨u2, _ | ⟨d, r⟩⟩
  · exact ⟨fun h2 => by simp at h2, fun _ => by simp [Module.parse, h, Module.parseFields]⟩
  · exact ⟨fun h2 => by simp at h2, fun _ => by simp [Module.parse, h, Module.parseFields]⟩
  · refine ⟨fun _ => by simp [Module.parse, h, Module.parseFields, hs], fun h2 => ?_⟩
    simp at h2; omega

/-- Claim C2 counterexample: on the line `a abc` the size field `abc` is
present and not a number, yet parse reports the missing-used_by error,
not the invalid-number error. -/
theorem C2_counterexample :
    Module.parse (str "a abc") = Except.error ParseError.usedByNotFound ∧
    parseU64 (str "abc") = none ∧
    ParseError.usedByNotFound ≠ ParseError.invalidSize :=
  ⟨rfl, rfl, by decide⟩

/-- Claim C2 witness: with all four fields present a non-numeric size field
yields the invalid-number error. -/
theorem C2_witness :
    Module.parse (str "a abc 1 -") = Except.error ParseError.invalidSize :=
  (C2_size_check_after_used_by (str "a abc 1 -") (str "a") (str "abc")
    [str "1", str "-"] rfl rfl).1 (by decide)

theorem parse_ok_elim {line : Str} {m : Module}
    (h : Module.parse line = Except.ok m) :
    ∃ name s u2 d rest n,
      splitChar ' ' line = name :: s :: u2 :: d :: rest ∧
      parseU64 s = some n ∧
      m = { module := name, size := n,
            used_by :=
              if d = ['-'] then []
              else (splitChar ',' d).filter (fun x => x ≠ []) } := by
  unfold Module.parse at h
  rcases hs : splitChar ' ' line with _ | ⟨name, _ | ⟨s, _ | ⟨u2, _ | ⟨d, rest⟩⟩⟩⟩ <;>
    rw [hs] at h <;> simp [Module.parseFields] at h
  rcases hp : parseU64 s with _ | n <;> rw [hp] at h <;> simp at h
  subst h
  exact ⟨name, s, u2, d, rest, n, rfl, hp, by simp⟩

/-- Claim C3: on every successful parse the dependents come from the fourth
space-delimited field: the sentinel `-` gives an empty list, otherwise the
list is the comma-split of the field with empty pieces discarded in order,
so no entry is ever the empty string. -/
theorem C3_dependents (line : Str) (m : Module)
    (h : Module.parse line = Except.ok m) :
    (∃ d, (splitChar ' ' line).get? 3 = some d ∧
      (d = ['-'] → m.used_by = []) ∧
      (d ≠ ['-'] → m.used_by = (splitChar ',' d).filter (fun x => x ≠ []))) ∧
    (∀ x ∈ m.used_by, x ≠ []) := by
  obtain ⟨name, s, u2, d, rest, n, hs, hp, hm⟩ := parse_ok_elim h
  subst hm
  refine ⟨⟨d, by simp [hs], ?_, ?_⟩, ?_⟩
  · intro hd; simp [hd]
  · intro hd; simp [hd]
  · intro x hx
    by_cases hd : d = ['-']
    · simp [hd] at hx
    · simp [hd] at hx
      exact hx.2

/-- Claim C3 witness: the line `a 5 0 b,c,` parses with dependents exactly
`b` and `c`, the trailing comma producing no empty entry. -/
theorem C3_witness :
    (∃ d, (splitChar ' ' (str "a 5 0 b,c,")).get? 3 = some d ∧
      (d = ['-'] →
        (Module.mk (str "a") 5 [str "b", str "c"]).used_by = []) ∧
      (d ≠ ['-'] →
        (Module.mk (str "a") 5 [str "b", str "c"]).used_by =
          (splitChar ',' d).filter (fun x => x ≠ []))) ∧
    (∀ x ∈ (Module.mk (str "a") 5 [str "b", str "c"]).used_by, x ≠ []) :=
  C3_dependents (str "a 5 0 b,c,") (Module.mk (str "a") 5 [str "b", str "c"]) rfl

/-- Claim C4: batch parsing is fail-fast: when every line parses the result
collects every record in input order, and when some line fails the result
is exactly the error of the first failing line, with no partial records. -/
theorem C4_parse_from_fail_fast :
    (∀ lines : List Str, (∀ l ∈ lines, ∃ m, Module.parse l = Except.ok m) →
      Module.parse_from lines = Except.ok (lines.filterMap parseOk?)) ∧
    (∀ (pre : List Str) (bad : Str) (post : List Str) (e : ParseError),
      (∀ l ∈ pre, ∃ m, Module.parse l = Except.ok m) →
      Module.parse bad = Except.error e →
      Module.parse_from (pre ++ bad :: post) = Except.error e) := by
  constructor
  · intro lines hall
    induction lines with
    | nil => rfl
    | cons l ls ih =>
      obtain ⟨m, hm⟩ := hall l (List.mem_cons_self _ _)
      have hls := ih fun x hx => hall x (List.mem_cons_of_mem _ hx)
      simp [Module.parse_from, hm, hls, parseOk?, List.filterMap_cons]
  · intro pre bad post e hpre hbad
    induction pre with
    | nil => simp [Module.parse_from, hbad]
    | cons l ls ih =>
      obtain ⟨m, hm⟩ := hpre l (List.mem_cons_self _ _)
      have hls := ih fun x hx => hpre x (List.mem_cons_of_mem _ hx)
      simp [Module.parse_from, hm, hls]

/-- Claim C4 witness: an all-good batch collects every record in order, and
a batch whose second line is empty fails with the missing-size error of
that line and returns no records. -/
theorem C4_witness :
    Module.parse_from [str "a 5 0 -", str "b 6 0 -"] =
      Except.ok [Module.mk (str "a") 5 [], Module.mk (str "b") 6 []] ∧
    Module.parse_from [str "a 5 0 -", str "", str "b 6 0 -"] =
      Except.error ParseError.sizeNotFound := by
  constructor
  · have h1 := C4_parse_from_fail_fast.1 [str "a 5 0 -", str "b 6 0 -"]
      (by intro l hl
          simp only [List.mem_cons, List.not_mem_nil, or_false] at hl
          rcases hl with rfl | rfl
          · exact ⟨Module.mk (str "a") 5 [], rfl⟩
          · exact ⟨Module.mk (str "b") 6 [], rfl⟩)
    exact h1.trans rfl
  · exact C4_parse_from_fail_fast.2 [str "a 5 0 -"] (str "") [str "b 6 0 -"]
      ParseError.sizeNotFound
      (by intro l hl
          simp only [List.mem_cons, List.not_mem_nil, or_false] at hl
          subst hl
          exact ⟨Module.mk (str "a") 5 [], rfl⟩)
      rfl

/-- Claim C5: a successfully read non-empty line is yielded as the parse
result of that line, and a parse error does not end the sequence: the
iterator state advances past the line, and when the next read result is
again a line the following call yields its parse result as well. -/
theorem C5_parse_error_not_terminal (s : Str) (rest : List ReadResult)
    (_hne : s ≠ []) :
    ModuleIter.next (ReadResult.line s :: rest) = (some (itemOfParse s), rest) ∧
    (∀ e, Module.parse s = Except.error e →
      ∀ s' rest', rest = ReadResult.line s' :: rest' →
        ModuleIter.next rest = (some (itemOfParse s'), rest')) := by
  refine ⟨rfl, ?_⟩
  intro e _ s' rest' hr
  subst hr
  rfl

/-- Claim C5 witness: after yielding the parse error of the line `x`, the
iterator still yields the record of the following line. -/
theorem C5_witness :
    ModuleIter.next [ReadResult.line (str "x"), ReadResult.line (str "a 5 0 -")] =
      (some (itemOfParse (str "x")), [ReadResult.line (str "a 5 0 -")]) ∧
    ModuleIter.next [ReadResult.line (str "a 5 0 -")] =
      (some (itemOfParse (str "a 5 0 -")), []) :=
  ⟨(C5_parse_error_not_terminal (str "x") [ReadResult.line (str "a 5 0 -")]
      (by decide)).1,
   (C5_parse_error_not_terminal (str "x") [ReadResult.line (str "a 5 0 -")]
      (by decide)).2 ParseError.sizeNotFound rfl (str "a 5 0 -") [] rfl⟩

/-- Claim C6: a zero-byte read is terminal: on the exhausted stream `next`
returns `none` with the same exhausted state, and every later call also
returns `none` — the sequence never produces another item after ending. -/
theorem C6_eof_terminal :
    ModuleIter.next [] = (none, []) ∧
    ∀ k, ModuleIter.nextN k [] = (none, []) := by
  refine ⟨rfl, ?_⟩
  intro k
  induction k with
  | zero => rfl
  | succ k ih => simpa [ModuleIter.nextN, ModuleIter.next] using ih

/-- Claim C8 (amended): a successful parse copies the first space-delimited
field verbatim into the name, so the name is non-empty exactly when the
line does not start with a space; a line starting with a space parses to a
record with an empty name. -/
theorem C8_name_from_first_field (line : Str) (m : Module)
    (h : Module.parse line = Except.ok m) :
    line ≠ [] ∧
    (∀ c cs, line = c :: cs → c ≠ ' ' → m.module ≠ []) ∧
    (∀ cs, line = ' ' :: cs → m.module = []) := by
  obtain ⟨name, s, u2, d, rest, n, hs, hp, hm⟩ := parse_ok_elim h
  refine ⟨?_, ?_, ?_⟩
  · rintro rfl
    simp [splitChar] at hs
  · rintro c cs rfl hc
    obtain ⟨w, ws, hw, _⟩ := splitChar_cons_ne ' ' c cs hc
    rw [hw] at hs
    cases hs
    simp [hm]
  · rintro cs rfl
    rw [show splitChar ' ' (' ' :: cs) = [] :: splitChar ' ' cs from by
          simp [splitChar]] at hs
    injection hs with hs1 hs2
    simp [hm, ← hs1]

/-- Claim C8 counterexample: the line starting with a space parses
successfully to a record whose name is the empty string. -/
theorem C8_counterexample :
    Module.parse (str " 5 0 -") =
      Except.ok (Module.mk [] 5 []) := rfl

/-- Claim C8 witness: a line not starting with a space yields a non-empty
name, and a line starting with a space yields the empty name. -/
theorem C8_witness :
    (Module.mk (str "a") 5 []).module ≠ [] ∧
    (Module.mk [] 5 []).module = [] :=
  ⟨(C8_name_from_first_field (str "a 5 0 -") (Module.mk (str "a") 5 []) rfl).2.1
      'a' (str " 5 0 -") rfl (by decide),
   (C8_name_from_first_field (str " 5 0 -") (Module.mk [] 5 []) rfl).2.2
      (str "5 0 -") rfl⟩

/-- Decimal value of a digit string, most significant digit first. -/
def digitsVal (s : Str) : Nat :=
  s.foldl (fun a c => a * 10 + (c.toNat - 48)) 0

/-- Drops one leading `+` sign when present. -/
def stripPlus : Str → Str
  | [] => []
  | c :: cs => if c = '+' then cs else c :: cs

/-- Characterization of the strings `u64::from_str` accepts: an optional
single leading `+` sign followed by a non-empty run of decimal digits
whose value is below `2 ^ 64`. -/
def IsU64Decimal (s : Str) (n : Nat) : Prop :=
  stripPlus s ≠ [] ∧ (∀ c ∈ stripPlus s, c.isDigit) ∧
    digitsVal (stripPlus s) = n ∧ n < 2 ^ 64

theorem foldl_digits_le (ds : Str) : ∀ acc : Nat,
    acc ≤ ds.foldl (fun a c => a * 10 + (c.toNat - 48)) acc := by
  induction ds with
  | nil => intro acc; simp
  | cons c cs ih =>
    intro acc
    calc acc ≤ acc * 10 + (c.toNat - 48) := by omega
    _ ≤ _ := by simpa using ih (acc * 10 + (c.toNat - 48))

theorem parseDigits_some_iff (ds : Str) : ∀ acc n : Nat, acc < 2 ^ 64 →
    (parseDigits acc ds = some n ↔
      (∀ c ∈ ds, c.isDigit) ∧
      ds.foldl (fun a c => a * 10 + (c.toNat - 48)) acc = n ∧ n < 2 ^ 64) := by
  induction ds with
  | nil =>
    intro acc n hacc
    simp only [parseDigits, List.foldl_nil, List.not_mem_nil, false_implies,
      implies_true, true_and, Option.some.injEq]
    constructor
    · rintro rfl; exact ⟨rfl, hacc⟩
    · rintro ⟨rfl, _⟩; rfl
  | cons c cs ih =>
    intro acc n hacc
    simp only [parseDigits, List.foldl_cons, List.mem_cons]
    cases hd : digit? c with
    | none =>
      have hcd : ¬ c.isDigit := by
        intro hc
        simp [digit?, hc] at hd
      simp [hcd]
    | some d =>
      have hcd : c.isDigit := by
        by_contra hc
        simp [digit?, hc] at hd
      have hdval : d = c.toNat - 48 := by
        simp [digit?, hcd] at hd
        omega
      subst hdval
      dsimp only
      by_cases hlt : acc * 10 + (c.toNat - 48) < 2 ^ 64
      · rw [if_pos hlt, ih _ n hlt]
        simp [hcd]
      · rw [if_neg hlt]
        constructor
        · intro hfalse; cases hfalse
        · rintro ⟨hall, hfold, hn⟩
          exfalso
          have hle := foldl_digits_le cs (acc * 10 + (c.toNat - 48))
          omega

theorem parseU64_some_iff (s : Str) (n : Nat) :
    parseU64 s = some n ↔ IsU64Decimal s n := by
  cases s with
  | nil => simp [parseU64, IsU64Decimal, stripPlus]
  | cons c cs =>
    by_cases hc : c = '+'
    · subst hc
      cases cs with
      | nil => simp [parseU64, IsU64Decimal, stripPlus]
      | cons c2 cs2 =>
        rw [show parseU64 ('+' :: c2 :: cs2) = parseDigits 0 (c2 :: cs2) from by
              simp [parseU64]]
        rw [parseDigits_some_iff (c2 :: cs2) 0 n (by positivity)]
        simp [IsU64Decimal, stripPlus, digitsVal]
    · rw [show parseU64 (c :: cs) = parseDigits 0 (c :: cs) from by
            simp [parseU64, hc]]
      rw [parseDigits_some_iff (c :: cs) 0 n (by positivity)]
      simp [IsU64Decimal, stripPlus, hc, digitsVal]

/-- Claim C7 (amended): for a line with all four positional fields present,
parse succeeds exactly when the size field is an optional single leading
plus sign followed by a non-empty base-10 digit run whose value fits in 64
bits — the sign tolerance of the Rust `u64` parser is the one departure
from a bare digit representation — and the record size is that value;
otherwise the invalid-number error is returned, never a silent default. -/
theorem C7_size_u64 (line name s u2 d : Str) (rest : List Str)
    (h : splitChar ' ' line = name :: s :: u2 :: d :: rest) :
    (∀ m, Module.parse line = Except.ok m → IsU64Decimal s m.size) ∧
    (∀ n, IsU64Decimal s n → ∃ m, Module.parse line = Except.ok m ∧ m.size = n) ∧
    ((∀ n, ¬ IsU64Decimal s n) →
      Module.parse line = Except.error ParseError.invalidSize) := by
  refine ⟨?_, ?_, ?_⟩
  · intro m hm
    obtain ⟨name', s', u2', d', rest', n, hs', hp', hm'⟩ := parse_ok_elim hm
    rw [h] at hs'
    injection hs' with e1 e2
    injection e2 with e2a e2b
    subst e2a
    have : m.size = n := by rw [hm']
    rw [this]
    exact (parseU64_some_iff s n).mp hp'
  · intro n hn
    have hp := (parseU64_some_iff s n).mpr hn
    refine ⟨{ module := name, size := n,
              used_by :=
                if d = ['-'] then []
                else (splitChar ',' d).filter (fun x => x ≠ []) }, ?_, rfl⟩
    unfold Module.parse
    rw [h]
    simp [Module.parseFields, hp]
  · intro hnone
    unfold Module.parse
    rw [h]
    cases hp : parseU64 s with
    | none => simp [Module.parseFields, hp]
    | some k => exact absurd ((parseU64_some_iff s k).mp hp) (hnone k)

/-- Claim C7 counterexample: the line `a +5 0 -` parses successfully with
size 5 although its size field `+5` is not a bare digit string. -/
theorem C7_counterexample :
    Module.parse (str "a +5 0 -") = Except.ok (Module.mk (str "a") 5 []) ∧
    ¬ (∀ c ∈ str "+5", c.isDigit) :=
  ⟨rfl, by decide⟩

/-- Claim C7 witness: a digit-run size field yields its value, and a size
field whose value exceeds the 64-bit range yields the invalid-number
error. -/
theorem C7_witness :
    IsU64Decimal (str "5") (Module.mk (str "a") 5 []).size ∧
    Module.parse (str "a 99999999999999999999 0 -") =
      Except.error ParseError.invalidSize := by
  constructor
  · exact (C7_size_u64 (str "a 5 0 -") (str "a") (str "5") (str "0") (str "-")
      [] rfl).1 (Module.mk (str "a") 5 []) rfl
  · refine (C7_size_u64 (str "a 99999999999999999999 0 -") (str "a")
      (str "99999999999999999999") (str "0") (str "-") [] rfl).2.2 ?_
    intro n hn
    obtain ⟨-, -, hval, hlt⟩ := hn
    rw [show digitsVal (stripPlus (str "99999999999999999999")) =
          99999999999999999999 from by decide] at hval
    omega

/-- Claim C10: the iterator passes each read line to parse untrimmed, so
when the dependents field is the last field on the line it keeps the
trailing newline; in particular a final field `-` followed by a newline is
not the sentinel `-` and yields the single dependent `-\n` rather than the
empty list. -/
theorem C10_terminator_not_stripped (name s u2 : Str) (k : Nat)
    (rest : List ReadResult)
    (hn : ' ' ∉ name) (hs : ' ' ∉ s) (hu : ' ' ∉ u2)
    (hk : parseU64 s = some k) :
    Module.parse (name ++ ' ' :: (s ++ ' ' :: (u2 ++ ' ' :: ['-', '\n']))) =
      Except.ok (Module.mk name k [['-', '\n']]) ∧
    ModuleIter.next
        (ReadResult.line (name ++ ' ' :: (s ++ ' ' :: (u2 ++ ' ' :: ['-', '\n']))) ::
          rest) =
      (some (IterItem.ok (Module.mk name k [['-', '\n']])), rest) := by
  have hsplit :
      splitChar ' ' (name ++ ' ' :: (s ++ ' ' :: (u2 ++ ' ' :: ['-', '\n']))) =
        [name, s, u2, ['-', '\n']] := by
    rw [splitChar_append ' ' name _ hn, splitChar_append ' ' s _ hs,
        splitChar_append ' ' u2 _ hu,
        splitChar_not_mem ' ' ['-', '\n'] (by decide)]
  have hparse :
      Module.parse (name ++ ' ' :: (s ++ ' ' :: (u2 ++ ' ' :: ['-', '\n']))) =
        Except.ok (Module.mk name k [['-', '\n']]) := by
    unfold Module.parse
    rw [hsplit]
    simp only [Module.parseFields, hk]
    rw [if_neg (by decide : ¬ (['-', '\n'] : Str) = ['-'])]
    rw [splitChar_not_mem ',' ['-', '\n'] (by decide)]
    simp
  exact ⟨hparse, by simp [ModuleIter.next, itemOfParse, hparse]⟩

/-- Claim C10 witness: the concrete line `a 5 0 -` with its trailing
newline parses to a record with the single dependent `-` plus newline,
both directly and through the iterator. -/
theorem C10_witness :
    Module.parse (str "a 5 0 -\n") = Except.ok (Module.mk (str "a") 5 [str "-\n"]) ∧
    ModuleIter.next [ReadResult.line (str "a 5 0 -\n")] =
      (some (IterItem.ok (Module.mk (str "a") 5 [str "-\n"])), []) := by
  have h := C10_terminator_not_stripped (str "a") (str "5") (str "0") 5 []
    (by decide) (by decide) (by decide) rfl
  exact ⟨h.1, h.2⟩

end ProcModules
